import Mathlib

/-!
Shallow embedding of the order-batching evaluator
(`src/batching_problem/definitions.py`): the domain model, the distance
model (`aisle_distance`, `row_distance`, `distance`), the picklist cost
function, the feasibility checker and the evaluator.  Exceptional control
flow of the Python source (KeyError / AttributeError) is modelled with
`Except String`.
-/

deriving instance DecidableEq for Except

namespace Batching

/-- `Article` from definitions.py: an id and a volume (Python float,
modelled as a rational). -/
structure Article where
  id : String
  volume : ℚ
deriving DecidableEq, Repr

/-- `WarehouseItem` from definitions.py.  The `article` field is an
`Option` because the source constructs the virtual conveyor item with
`article = None`. -/
structure WarehouseItem where
  id : String
  row : ℤ
  aisle : ℤ
  article : Option Article
  zone : String
deriving DecidableEq, Repr

/-- `Order` from definitions.py: an id and the multiset (list) of
requested articles. -/
structure Order where
  id : String
  positions : List Article
deriving DecidableEq, Repr

/-- `Parameters` from definitions.py. -/
structure Parameters where
  min_number_requested_items : ℤ
  max_orders_per_batch : ℤ
  max_container_volume : ℚ
  first_row : ℤ
  last_row : ℤ
  first_aisle : ℤ
  last_aisle : ℤ
deriving DecidableEq, Repr

/-- `Batch` from definitions.py: its orders and its picklists (ordered
lists of warehouse items). -/
structure Batch where
  orders : List Order
  picklists : List (List WarehouseItem)
deriving DecidableEq, Repr

/-- The parts of `Instance` the evaluator reads: parameters and assigned
batches. -/
structure Instance where
  id : String
  parameters : Parameters
  batches : List Batch
deriving DecidableEq, Repr

/-- `Instance.aisle_distance`: `abs(u - v)`. -/
def aisle_distance (u v : ℤ) : ℤ := |u - v|

/-- `Instance.row_distance` translated clause by clause:
`middle_distance = abs(u) + abs(v)`; if `min(u, v) < 0 < max(u, v)`
return it; elif `u < 0` wrap through `first_row`; else wrap through
`last_row`. -/
def row_distance (p : Parameters) (u v : ℤ) : ℤ :=
  let middle_distance := |u| + |v|
  if min u v < 0 ∧ 0 < max u v then
    middle_distance
  else if u < 0 then
    min middle_distance (2 * |p.first_row| - middle_distance)
  else
    min middle_distance (2 * p.last_row - middle_distance)

/-- `Instance.distance`: `math.inf` (modelled as `⊤` in `WithTop ℤ`) for
items of different zones, otherwise row distance plus aisle distance. -/
def distance (p : Parameters) (u v : WarehouseItem) : WithTop ℤ :=
  if u.zone ≠ v.zone then ⊤
  else ((row_distance p u.row v.row + aisle_distance u.aisle v.aisle : ℤ) : WithTop ℤ)

/-- The virtual dispatch item `WarehouseItem("conveyor", 0, 0, None, zone)`
constructed inside `picklist_cost`. -/
def conveyor (zone : String) : WarehouseItem :=
  { id := "conveyor", row := 0, aisle := 0, article := none, zone := zone }

/-- `sum(self.distance(picklist[i], picklist[i+1]) for i in
range(len(picklist) - 1))`. -/
def consecSum (p : Parameters) : List WarehouseItem → WithTop ℤ
  | [] => 0
  | [_] => 0
  | a :: b :: rest => distance p a b + consecSum p (b :: rest)

/-- `Instance.picklist_cost`: 0 for the empty picklist, otherwise
conveyor→first + last→conveyor + the sum over consecutive pairs. -/
def picklist_cost (p : Parameters) : List WarehouseItem → WithTop ℤ
  | [] => 0
  | x :: rest =>
    let cv := conveyor x.zone
    distance p cv x
      + distance p ((x :: rest).getLast (List.cons_ne_nil x rest)) cv
      + consecSum p (x :: rest)

/-! ### Feasibility checker

`Instance.check_feasibility` uses a Python dict `count_dict` mapping
article ids to remaining counts; we model it as an insertion-ordered
association list.  The statement `count_dict[item.article.id] -= 1`
raises `KeyError` when the key is absent, and `item.article.id` raises
`AttributeError` when `article` is `None`; both are modelled by
`Except.error`. -/

/-- Python dict lookup `d[k]` / `k in d`, first matching key. -/
def lookupCD : List (String × ℤ) → String → Option ℤ
  | [], _ => none
  | (k, v) :: rest, key => if k = key then some v else lookupCD rest key

/-- Python dict store `d[k] = v`: overwrite the existing binding in
place, append at the end when the key is new. -/
def setCD : List (String × ℤ) → String → ℤ → List (String × ℤ)
  | [], key, v => [(key, v)]
  | (k, w) :: rest, key, v =>
    if k = key then (key, v) :: rest else (k, w) :: setCD rest key v

/-- One iteration of the count_dict construction loop: `if article not in
count_dict: count_dict[article] = 0` then `count_dict[article] += 1`. -/
def bumpCD (d : List (String × ℤ)) (key : String) : List (String × ℤ) :=
  match lookupCD d key with
  | none => setCD d key 1
  | some c => setCD d key (c + 1)

/-- Builds `count_dict` from the flattened article ids of a batch's
orders. -/
def buildCountDict (articles : List String) : List (String × ℤ) :=
  articles.foldl bumpCD []

/-- The key list of a modelled dict (Python dict keys are unique; the
association lists built by `buildCountDict` keep this invariant). -/
def keysCD (d : List (String × ℤ)) : List String :=
  d.map Prod.fst

/-- The inner loop `for item in picklist:` of check_feasibility: flag the
missing-article violation, decrement (KeyError when the key is absent —
the flagged violation is lost because the exception escapes; likewise
`item.article.id` raises AttributeError when `article` is `None`), flag
the negative-count violation. -/
def scanItems (d : List (String × ℤ)) (valid : Bool) :
    List WarehouseItem → Except String (List (String × ℤ) × Bool)
  | [] => Except.ok (d, valid)
  | item :: rest =>
    match item.article with
    | none => Except.error "AttributeError: article is None"
    | some a =>
      match lookupCD d a.id with
      | none => Except.error ("KeyError: " ++ a.id)
      | some c =>
        scanItems (setCD d a.id (c - 1)) (valid && decide (0 ≤ c - 1)) rest

/-- The loop `for picklist in batch.picklists:` around `scanItems`. -/
def scanPicklists (d : List (String × ℤ)) (valid : Bool) :
    List (List WarehouseItem) → Except String (List (String × ℤ) × Bool)
  | [] => Except.ok (d, valid)
  | pl :: rest =>
    match scanItems d valid pl with
    | Except.error e => Except.error e
    | Except.ok s => scanPicklists s.1 s.2 rest

/-- `sum(item.article.volume for item in picklist)`; `AttributeError`
when an item has no article. -/
def volumeSumE : List WarehouseItem → Except String ℚ
  | [] => Except.ok 0
  | item :: rest =>
    match item.article with
    | none => Except.error "AttributeError: article is None"
    | some a =>
      match volumeSumE rest with
      | Except.error e => Except.error e
      | Except.ok s => Except.ok (a.volume + s)

/-- The final per-picklist loop of check_feasibility: the mixed-zone
check (`len(set(zones)) > 1`) then the container-volume check. -/
def zoneVolumeCheck (p : Parameters) (valid : Bool) :
    List (List WarehouseItem) → Except String Bool
  | [] => Except.ok valid
  | pl :: rest =>
    let v1 := valid && !decide (1 < ((pl.map WarehouseItem.zone).dedup).length)
    match volumeSumE pl with
    | Except.error e => Except.error e
    | Except.ok vol =>
      zoneVolumeCheck p (v1 && !decide (p.max_container_volume < vol)) rest

/-- The article ids of a batch's ordered positions, flattened in source
order (`[article.id for order in batch.orders for article in
order.positions]`). -/
def orderedArticleIds (b : Batch) : List String :=
  (b.orders.map fun o => o.positions.map Article.id).flatten

/-- The per-batch body of check_feasibility: orders-count check, article
accounting over all picklists, under-pick sweep, zone and volume
checks. -/
def checkBatch (p : Parameters) (valid : Bool) (b : Batch) : Except String Bool :=
  let v1 := valid && !decide (p.max_orders_per_batch < (b.orders.length : ℤ))
  let d := buildCountDict (orderedArticleIds b)
  match scanPicklists d v1 b.picklists with
  | Except.error e => Except.error e
  | Except.ok s =>
    let v2 := s.2 && !(s.1.any fun kv => decide (0 < kv.2))
    zoneVolumeCheck p v2 b.picklists

/-- The loop `for batch in self.batches:` threading `is_valid`. -/
def checkBatches (p : Parameters) (valid : Bool) :
    List Batch → Except String Bool
  | [] => Except.ok valid
  | b :: rest =>
    match checkBatch p valid b with
    | Except.error e => Except.error e
    | Except.ok v => checkBatches p v rest

/-- Total number of picked items: `sum(len(picklist) for batch in
self.batches for picklist in batch.picklists)`. -/
def totalPickedItems (inst : Instance) : ℕ :=
  ((inst.batches.map fun b => (b.picklists.map List.length).sum)).sum

/-- `Instance.check_feasibility`: the global minimum-items check followed
by the per-batch checks; returns the final `is_valid` flag, or the first
uncaught exception. -/
def check_feasibility (inst : Instance) : Except String Bool :=
  let valid :=
    !decide ((totalPickedItems inst : ℤ) < inst.parameters.min_number_requested_items)
  checkBatches inst.parameters valid inst.batches

/-- The `stats` dict assembled by `Instance.evaluate`. -/
structure Stats where
  time_elapsed : ℚ
  nbr_picklist_items : ℕ
  nbr_picklists : ℕ
  objective_value : WithTop ℤ
  feasible : Bool
deriving DecidableEq, Repr

/-- `Instance.evaluate`: runs check_feasibility (whose exceptions
propagate), counts picklist items and picklists, sums picklist costs,
and assembles the stats record. -/
def evaluate (inst : Instance) (time_elapsed : ℚ) : Except String Stats :=
  match check_feasibility inst with
  | Except.error e => Except.error e
  | Except.ok feasible =>
    Except.ok
      { time_elapsed := time_elapsed,
        nbr_picklist_items :=
          ((inst.batches.map fun b => (b.picklists.map List.length).sum)).sum,
        nbr_picklists := (inst.batches.map fun b => b.picklists.length).sum,
        objective_value :=
          ((inst.batches.map fun b =>
            (b.picklists.map (picklist_cost inst.parameters)).sum)).sum,
        feasible := feasible }

/-! ### Statements taken from the specification's wording

These two definitions are *not* translations of the source; they
transcribe the spec's description of `row_distance` so that the code can
be compared against it.  The spec says the wrap boundary is
`|first_row|` whenever both rows are `≤ 0` and `last_row` otherwise; the
source instead tests only `u < 0`. -/

/-- Modelled from the spec's words (claim C2): direct cost for strictly
opposite signs, otherwise the minimum of the direct cost and the wrap
cost through the boundary, where the boundary magnitude is `|first_row|`
whenever both rows are `≤ 0` and `last_row` otherwise. -/
def rowDistanceClaimed (p : Parameters) (u v : ℤ) : ℤ :=
  let direct := |u| + |v|
  if (u < 0 ∧ 0 < v) ∨ (v < 0 ∧ 0 < u) then direct
  else
    let boundary := if u ≤ 0 ∧ v ≤ 0 then |p.first_row| else p.last_row
    min direct (2 * boundary - direct)

/-- The amended description of `row_distance`: as `rowDistanceClaimed`
but with the boundary chosen by the sign of the *first* argument alone
(`|first_row|` iff `u < 0`), which is what the source's `elif u < 0`
does. -/
def rowDistanceAmended (p : Parameters) (u v : ℤ) : ℤ :=
  let direct := |u| + |v|
  if (u < 0 ∧ 0 < v) ∨ (v < 0 ∧ 0 < u) then direct
  else
    let boundary := if u < 0 then |p.first_row| else p.last_row
    min direct (2 * boundary - direct)

/-! ### Concrete fixtures used by witnesses and counterexamples -/

/-- Symmetric row bounds `-10 .. 10` (the shape used by the spec's worked
examples). -/
def pSym : Parameters :=
  { min_number_requested_items := 0, max_orders_per_batch := 10,
    max_container_volume := 100, first_row := -10, last_row := 10,
    first_aisle := 0, last_aisle := 10 }

/-- Asymmetric row bounds `-10 .. 3`. -/
def pAsym : Parameters :=
  { min_number_requested_items := 0, max_orders_per_batch := 10,
    max_container_volume := 100, first_row := -10, last_row := 3,
    first_aisle := 0, last_aisle := 10 }

/-- Strongly asymmetric row bounds `-10 .. 1`. -/
def pLow : Parameters :=
  { min_number_requested_items := 0, max_orders_per_batch := 10,
    max_container_volume := 100, first_row := -10, last_row := 1,
    first_aisle := 0, last_aisle := 10 }

def artA : Article := { id := "a", volume := 1 }

def artB : Article := { id := "b", volume := 2 }

def itemA : WarehouseItem :=
  { id := "iA", row := 5, aisle := 0, article := some artA, zone := "z" }

def itemB : WarehouseItem :=
  { id := "iB", row := -5, aisle := 0, article := some artA, zone := "z" }

/-- An item in a different zone. -/
def itemW : WarehouseItem :=
  { id := "iW", row := 5, aisle := 0, article := some artA, zone := "w" }

/-- An item at row 0. -/
def itemZero : WarehouseItem :=
  { id := "iZ", row := 0, aisle := 0, article := some artA, zone := "z" }

/-- An item at a negative row. -/
def itemNeg : WarehouseItem :=
  { id := "iN", row := -4, aisle := 0, article := some artA, zone := "z" }

def orderA : Order := { id := "o1", positions := [artA] }

/-- An item holding article `b`, which no order requests. -/
def itemBad : WarehouseItem :=
  { id := "iBad", row := 1, aisle := 1, article := some artB, zone := "z" }

/-- An instance whose single batch picks an article (`b`) that none of
its orders requested: `count_dict` has no key `"b"`. -/
def instBad : Instance :=
  { id := "bad", parameters := pSym,
    batches := [{ orders := [orderA], picklists := [[itemBad]] }] }

/-- The article ids collected by a batch's picklists, in scan order;
`none` marks an item without an article. -/
def pickedArticleIds (b : Batch) : List (Option String) :=
  b.picklists.flatten.map fun i => i.article.map Article.id

/-- The summed article volume of a picklist (0 for an item without an
article; such items never reach the volume check because the article
scan raises first). -/
def picklistVolume (pl : List WarehouseItem) : ℚ :=
  (pl.map fun i => (i.article.map Article.volume).getD 0).sum

/-- A batch that picks exactly its single order's single article. -/
def batchGood : Batch := { orders := [orderA], picklists := [[itemA]] }

/-- An instance whose single batch picks exactly its single order's
article. -/
def instGood : Instance :=
  { id := "good", parameters := pSym, batches := [batchGood] }

/-- As `pSym` but demanding at least 100 picked items overall. -/
def pHighMin : Parameters :=
  { pSym with min_number_requested_items := 100 }

/-- The same perfectly partitioned batch as `instGood`, but under a
`min_number_requested_items` that the single picked item cannot meet. -/
def instMinFail : Instance :=
  { id := "minfail", parameters := pHighMin, batches := [batchGood] }

/-- The stats record `evaluate` produces for `instGood`. -/
def statsGood : Stats :=
  { time_elapsed := 3, nbr_picklist_items := 1, nbr_picklists := 1,
    objective_value := ((10 : ℤ) : WithTop ℤ), feasible := true }

/-! ## Theorems -/

/-- `row_distance` is symmetric except when exactly one argument is zero
and the other negative (there the two boundary branches can differ). -/
theorem row_distance_comm_aux (p : Parameters) {u v : ℤ}
    (h : ¬(u = 0 ∧ v < 0)) (h' : ¬(v = 0 ∧ u < 0)) :
    row_distance p u v = row_distance p v u := by
  simp only [row_distance]
  rcases abs_cases u with ⟨hu1, hu2⟩ | ⟨hu1, hu2⟩ <;>
    rcases abs_cases v with ⟨hv1, hv2⟩ | ⟨hv1, hv2⟩ <;>
      rw [hu1, hv1] <;> split_ifs <;> omega

/-- C2 (counterexample).  With bounds `-10 .. 3`, at `u = 0, v = -4`
(both rows `≤ 0`) the code wraps through `last_row` and returns 2, while
the claimed boundary rule (`|first_row|` whenever both are `≤ 0`) gives
4. -/
theorem row_distance_claimed_boundary_cex :
    row_distance pAsym 0 (-4) = 2 ∧ rowDistanceClaimed pAsym 0 (-4) = 4 ∧
      row_distance pAsym 0 (-4) ≠ rowDistanceClaimed pAsym 0 (-4) := by
  decide

/-- C2 (amended).  `row_distance(u, v)` is the direct cost `|u| + |v|`
for strictly opposite signs, and otherwise the minimum of the direct
cost and `2 * boundary - direct`, where the boundary magnitude is
`|first_row|` iff `u < 0` (not "iff both are `≤ 0`") and `last_row`
otherwise. -/
theorem row_distance_eq_amended (p : Parameters) (u v : ℤ) :
    row_distance p u v = rowDistanceAmended p u v := by
  simp only [row_distance, rowDistanceAmended]
  rcases abs_cases u with ⟨hu1, hu2⟩ | ⟨hu1, hu2⟩ <;>
    rcases abs_cases v with ⟨hv1, hv2⟩ | ⟨hv1, hv2⟩ <;>
      rw [hu1, hv1] <;> split_ifs <;> omega

/-- Same-zone distance symmetry outside the zero/negative corner, as a
reusable helper. -/
theorem distance_comm_aux (p : Parameters) (u v : WarehouseItem)
    (hz : u.zone = v.zone)
    (h : ¬((u.row = 0 ∧ v.row < 0) ∨ (v.row = 0 ∧ u.row < 0))) :
    distance p u v = distance p v u := by
  rcases not_or.mp h with ⟨h1, h2⟩
  simp only [distance, hz, ne_eq, not_true_eq_false, if_false]
  exact congrArg _ (by
    rw [row_distance_comm_aux p h1 h2, aisle_distance, aisle_distance,
      abs_sub_comm])

/-- C3 (counterexample).  With bounds `-10 .. 3`, the same-zone items at
rows 0 and −4 have `distance(u, v) = 2` but `distance(v, u) = 4`: the
claimed symmetry fails. -/
theorem distance_symm_cex :
    itemZero.zone = itemNeg.zone ∧
      distance pAsym itemZero itemNeg = ((2 : ℤ) : WithTop ℤ) ∧
      distance pAsym itemNeg itemZero = ((4 : ℤ) : WithTop ℤ) ∧
      distance pAsym itemZero itemNeg ≠ distance pAsym itemNeg itemZero := by
  refine ⟨rfl, by decide, by decide, by decide⟩

/-- C3 (amended).  `distance(u, v) = distance(v, u)` for all same-zone
item pairs, except possibly when exactly one of the two rows is zero and
the other strictly negative. -/
theorem distance_symm_amended (p : Parameters) (u v : WarehouseItem)
    (hz : u.zone = v.zone)
    (h : ¬((u.row = 0 ∧ v.row < 0) ∨ (v.row = 0 ∧ u.row < 0))) :
    distance p u v = distance p v u :=
  distance_comm_aux p u v hz h

/-- Witness for C3: concrete same-zone items at rows 5 and −5. -/
theorem distance_symm_amended_witness :
    distance pSym itemA itemB = distance pSym itemB itemA :=
  distance_symm_amended pSym itemA itemB rfl (by decide)

/-- C4 (counterexample).  With bounds `-10 .. 1`, the pair `u = 0,
v = -4` (both within bounds, not of strictly opposite signs) gets
`row_distance = min(4, 2·1 − 4) = −2 < 0`: the claimed lower bound 0
fails. -/
theorem row_distance_nonneg_cex :
    pLow.first_row ≤ 0 ∧ 0 ≤ pLow.last_row ∧
      pLow.first_row ≤ (0 : ℤ) ∧ (0 : ℤ) ≤ pLow.last_row ∧
      pLow.first_row ≤ (-4 : ℤ) ∧ (-4 : ℤ) ≤ pLow.last_row ∧
      row_distance pLow 0 (-4) = -2 ∧ row_distance pLow 0 (-4) < 0 := by
  decide

/-- C4 (amended).  For in-bounds rows of equal sign (or including zero),
`row_distance` never exceeds `|first_row| + last_row`; it is also
nonnegative except in the corner `u = 0 ∧ v < 0`, where the
`last_row`-based wrap candidate can be negative. -/
theorem row_distance_bounds_amended (p : Parameters) (u v : ℤ)
    (hf : p.first_row ≤ 0) (hl : 0 ≤ p.last_row)
    (hu1 : p.first_row ≤ u) (hu2 : u ≤ p.last_row)
    (hv1 : p.first_row ≤ v) (hv2 : v ≤ p.last_row)
    (hss : ¬((u < 0 ∧ 0 < v) ∨ (v < 0 ∧ 0 < u))) :
    row_distance p u v ≤ |p.first_row| + p.last_row ∧
      (¬(u = 0 ∧ v < 0) → 0 ≤ row_distance p u v) := by
  simp only [row_distance]
  rw [abs_of_nonpos hf]
  rcases abs_cases u with ⟨hu3, hu4⟩ | ⟨hu3, hu4⟩ <;>
    rcases abs_cases v with ⟨hv3, hv4⟩ | ⟨hv3, hv4⟩ <;>
      rw [hu3, hv3] <;>
      refine ⟨?_, fun hne => ?_⟩ <;> split_ifs <;> omega

/-- Witness for C4: the spec's `first_row = -10, last_row = 10` scenario
at rows 9 and 8. -/
theorem row_distance_bounds_amended_witness :
    row_distance pSym 9 8 ≤ |pSym.first_row| + pSym.last_row ∧
      0 ≤ row_distance pSym 9 8 :=
  ⟨(row_distance_bounds_amended pSym 9 8 (by decide) (by decide) (by decide)
      (by decide) (by decide) (by decide) (by decide)).1,
   (row_distance_bounds_amended pSym 9 8 (by decide) (by decide) (by decide)
      (by decide) (by decide) (by decide) (by decide)).2 (by decide)⟩

/-- C7.  `distance` is the unreachable sentinel exactly on zone
mismatch, and otherwise the sum of the row metric and the absolute aisle
difference. -/
theorem distance_zone_cases (p : Parameters) (u v : WarehouseItem) :
    (u.zone ≠ v.zone → distance p u v = ⊤) ∧
    (u.zone = v.zone →
      distance p u v =
        ((row_distance p u.row v.row + |u.aisle - v.aisle| : ℤ) : WithTop ℤ)) := by
  constructor
  · intro h
    simp [distance, h]
  · intro h
    simp [distance, aisle_distance, h]

/-- Witness for C7: a cross-zone pair evaluates to `⊤` and a same-zone
pair to the Manhattan composition. -/
theorem distance_zone_cases_witness :
    distance pSym itemA itemW = ⊤ ∧
      distance pSym itemA itemB =
        ((row_distance pSym itemA.row itemB.row + |itemA.aisle - itemB.aisle| : ℤ) : WithTop ℤ) :=
  ⟨(distance_zone_cases pSym itemA itemW).1 (by decide),
   (distance_zone_cases pSym itemA itemB).2 (by decide)⟩

/-- The consecutive-pair sum of `picklist_cost`, rephrased over
`zip pl pl.tail`. -/
theorem consecSum_eq_zip_sum (p : Parameters) (pl : List WarehouseItem) :
    consecSum p pl = ((pl.zip pl.tail).map fun ab => distance p ab.1 ab.2).sum := by
  induction pl with
  | nil => rfl
  | cons a rest ih =>
    cases rest with
    | nil => rfl
    | cons b rest2 =>
      simp only [consecSum, List.tail_cons, List.zip_cons_cons, List.map_cons,
        List.sum_cons] at ih ⊢
      rw [ih]

/-- C8.  An empty picklist costs 0; a non-empty picklist costs
dispatch→first plus the sum over consecutive pairs in the given order
plus last→dispatch, the dispatch being the virtual conveyor at row 0,
aisle 0 in the first item's zone. -/
theorem picklist_cost_formula (p : Parameters) (x : WarehouseItem)
    (rest : List WarehouseItem) :
    picklist_cost p [] = 0 ∧
    picklist_cost p (x :: rest) =
      distance p (conveyor x.zone) x
        + (((x :: rest).zip rest).map fun ab => distance p ab.1 ab.2).sum
        + distance p ((x :: rest).getLast (List.cons_ne_nil x rest)) (conveyor x.zone) := by
  refine ⟨rfl, ?_⟩
  have hcs := consecSum_eq_zip_sum p (x :: rest)
  simp only [List.tail_cons] at hcs
  simp only [picklist_cost]
  rw [hcs, add_right_comm]

/-- C5 (counterexample).  With bounds `-10 .. 3` and a single item at
row −4, the round trip costs `2 + 4 = 6`, while twice the
dispatch→item distance is `4`: the two legs differ because
`row_distance` is asymmetric around row 0. -/
theorem picklist_cost_single_cex :
    picklist_cost pAsym [itemNeg] = ((6 : ℤ) : WithTop ℤ) ∧
      distance pAsym (conveyor itemNeg.zone) itemNeg
          + distance pAsym (conveyor itemNeg.zone) itemNeg = ((4 : ℤ) : WithTop ℤ) ∧
      picklist_cost pAsym [itemNeg] ≠
        distance pAsym (conveyor itemNeg.zone) itemNeg
          + distance pAsym (conveyor itemNeg.zone) itemNeg := by
  refine ⟨by decide, by decide, by decide⟩

/-- C5 (amended).  A single-item picklist costs
`distance(dispatch, item) + distance(item, dispatch)`; this equals
`2 × distance(dispatch, item)` whenever the item's row is nonnegative
(and in general the two legs may differ). -/
theorem picklist_cost_single_amended (p : Parameters) (x : WarehouseItem) :
    picklist_cost p [x] =
      distance p (conveyor x.zone) x + distance p x (conveyor x.zone) ∧
    (0 ≤ x.row →
      picklist_cost p [x] =
        distance p (conveyor x.zone) x + distance p (conveyor x.zone) x) := by
  have h1 : picklist_cost p [x] =
      distance p (conveyor x.zone) x + distance p x (conveyor x.zone) := by
    simp [picklist_cost, consecSum]
  refine ⟨h1, fun hr => ?_⟩
  rw [h1]
  have hsym : distance p x (conveyor x.zone) = distance p (conveyor x.zone) x := by
    apply distance_comm_aux
    · rfl
    · intro hc
      rcases hc with ⟨h0, hneg⟩ | ⟨h0, hneg⟩
      · simp only [conveyor] at hneg
        omega
      · simp only [conveyor] at h0 hneg
        omega
  rw [hsym]

/-- Witness for C5: a single item at nonnegative row 5 costs twice the
dispatch distance. -/
theorem picklist_cost_single_amended_witness :
    picklist_cost pSym [itemA] =
      distance pSym (conveyor itemA.zone) itemA
        + distance pSym (conveyor itemA.zone) itemA :=
  (picklist_cost_single_amended pSym itemA).2 (by decide)

/-- C10.  `distance(u, u)` is the round trip through row 0 or through
the same-side boundary: `min(2|row|, 2·boundary − 2|row|)`, strictly
positive when `0 < |row| < boundary`. -/
theorem distance_self_not_zero (p : Parameters) (u : WarehouseItem) (B : ℤ)
    (hB : B = if u.row < 0 then |p.first_row| else p.last_row)
    (h1 : 0 < |u.row|) (h2 : |u.row| < B) :
    distance p u u =
      ((min (2 * |u.row|) (2 * B - 2 * |u.row|) : ℤ) : WithTop ℤ) ∧
      0 < min (2 * |u.row|) (2 * B - 2 * |u.row|) := by
  constructor
  · simp only [distance, ne_eq, not_true_eq_false, if_false]
    refine congrArg _ ?_
    simp only [aisle_distance, sub_self, abs_zero, add_zero, row_distance]
    rcases abs_cases u.row with ⟨hr1, hr2⟩ | ⟨hr1, hr2⟩ <;>
      rw [hr1] at h1 h2 ⊢ <;> split_ifs at hB ⊢ <;> omega
  · omega

/-- Witness for C10: the self-distance of the row-5 item under bounds
`-10 .. 10` is `min(10, 10) = 10 > 0`. -/
theorem distance_self_not_zero_witness :
    distance pSym itemA itemA =
      ((min (2 * |itemA.row|) (2 * 10 - 2 * |itemA.row|) : ℤ) : WithTop ℤ) ∧
      0 < min (2 * |itemA.row|) (2 * 10 - 2 * |itemA.row|) :=
  distance_self_not_zero pSym itemA 10 (by decide) (by decide) (by decide)

/-! ### Dict lemmas for the feasibility proof -/

theorem lookupCD_setCD (d : List (String × ℤ)) (k : String) (v : ℤ)
    (k' : String) :
    lookupCD (setCD d k v) k' = if k = k' then some v else lookupCD d k' := by
  induction d with
  | nil =>
    simp [setCD, lookupCD]
  | cons kv rest ih =>
    obtain ⟨a, b⟩ := kv
    by_cases h : a = k
    · subst h
      by_cases hkk : a = k' <;> simp [setCD, lookupCD, hkk]
    · simp only [setCD, if_neg h, lookupCD]
      by_cases h2 : a = k'
      · have hkk : k ≠ k' := fun hc => h (h2.trans hc.symm)
        simp [h2, hkk]
      · simp [h2, ih]

theorem lookupCD_bumpCD (d : List (String × ℤ)) (k k' : String) :
    lookupCD (bumpCD d k) k' =
      if k = k' then some ((lookupCD d k).getD 0 + 1) else lookupCD d k' := by
  unfold bumpCD
  cases h : lookupCD d k <;> simp [lookupCD_setCD, h]

theorem lookupCD_foldl_bump (l : List String) :
    ∀ (d : List (String × ℤ)) (k : String),
      lookupCD (l.foldl bumpCD d) k =
        if k ∈ l then some ((lookupCD d k).getD 0 + (l.count k : ℤ))
        else lookupCD d k := by
  induction l with
  | nil =>
    intro d k
    simp
  | cons a t ih =>
    intro d k
    rw [List.foldl_cons, ih]
    by_cases hak : a = k
    · subst hak
      by_cases hmem : a ∈ t
      · simp [hmem, lookupCD_bumpCD, List.count_cons]
        omega
      · simp [hmem, lookupCD_bumpCD, List.count_eq_zero.mpr hmem,
          List.count_cons]
    · by_cases hmem : k ∈ t
      · simp [hmem, hak, lookupCD_bumpCD, List.count_cons, Ne.symm hak]
      · have : ¬ k ∈ a :: t := by
          simp [hak, hmem]
          exact fun hc => absurd hc.symm hak
        simp [hmem, this, lookupCD_bumpCD, hak]

theorem lookupCD_build (l : List String) (k : String) :
    lookupCD (buildCountDict l) k =
      if k ∈ l then some ((l.count k : ℤ)) else none := by
  rw [buildCountDict, lookupCD_foldl_bump]
  simp [lookupCD]

theorem keysCD_setCD (d : List (String × ℤ)) (k : String) (v : ℤ) :
    keysCD (setCD d k v) =
      if k ∈ keysCD d then keysCD d else keysCD d ++ [k] := by
  induction d with
  | nil =>
    simp [setCD, keysCD]
  | cons kv rest ih =>
    by_cases h : kv.1 = k
    · simp [setCD, h, keysCD]
    · simp only [setCD, if_neg h, keysCD, List.map_cons] at ih ⊢
      rw [ih]
      have : ¬ k ∈ kv.1 :: rest.map Prod.fst ↔ ¬ k ∈ rest.map Prod.fst := by
        simp [Ne.symm h]
      by_cases hm : k ∈ rest.map Prod.fst
      · simp [hm, Ne.symm h]
      · simp [hm, Ne.symm h]

theorem nodup_keysCD_setCD (d : List (String × ℤ)) (k : String) (v : ℤ)
    (h : (keysCD d).Nodup) : (keysCD (setCD d k v)).Nodup := by
  rw [keysCD_setCD]
  by_cases hm : k ∈ keysCD d
  · simp [hm, h]
  · simp [hm, List.nodup_append, h]

theorem nodup_keysCD_bumpCD (d : List (String × ℤ)) (k : String)
    (h : (keysCD d).Nodup) : (keysCD (bumpCD d k)).Nodup := by
  unfold bumpCD
  cases lookupCD d k <;> exact nodup_keysCD_setCD d k _ h

theorem nodup_keysCD_build (l : List String) :
    (keysCD (buildCountDict l)).Nodup := by
  have main : ∀ (d : List (String × ℤ)), (keysCD d).Nodup →
      (keysCD (l.foldl bumpCD d)).Nodup := by
    induction l with
    | nil => intro d hd; simpa using hd
    | cons a t ih =>
      intro d hd
      rw [List.foldl_cons]
      exact ih _ (nodup_keysCD_bumpCD d a hd)
  exact main [] (by simp [keysCD])

theorem lookupCD_eq_some_of_mem (d : List (String × ℤ))
    (h : (keysCD d).Nodup) {k : String} {v : ℤ} (hm : (k, v) ∈ d) :
    lookupCD d k = some v := by
  induction d with
  | nil => cases hm
  | cons kv rest ih =>
    simp only [keysCD, List.map_cons, List.nodup_cons] at h
    rcases List.mem_cons.mp hm with heq | hrest
    · subst heq
      simp [lookupCD]
    · have hk : kv.1 ≠ k := by
        intro hc
        exact h.1 (hc ▸ List.mem_map_of_mem Prod.fst hrest)
      simp only [lookupCD, if_neg hk]
      exact ih h.2 hrest

theorem exists_map_some {α : Type} (l : List (Option α))
    (h : ∀ x ∈ l, ∃ y, x = some y) : ∃ l' : List α, l = l'.map some := by
  induction l with
  | nil => exact ⟨[], rfl⟩
  | cons x t ih =>
    obtain ⟨y, hy⟩ := h x (List.mem_cons_self x t)
    obtain ⟨t', ht'⟩ := ih fun z hz => h z (List.mem_cons_of_mem x hz)
    exact ⟨y :: t', by rw [hy, ht', List.map_cons]⟩

/-! ### Scan lemmas for the feasibility proof -/

theorem mem_keysCD_of_lookupCD_some {d : List (String × ℤ)} {k : String}
    {c : ℤ} (h : lookupCD d k = some c) : k ∈ keysCD d := by
  induction d with
  | nil => cases h
  | cons kv rest ih =>
    obtain ⟨a, b⟩ := kv
    by_cases hk : a = k
    · simp [keysCD, hk]
    · simp only [lookupCD, if_neg hk] at h
      simp only [keysCD, List.map_cons, List.mem_cons]
      exact Or.inr (ih h)

/-- When every scanned article id is a key of the dict with a remaining
count at least its number of occurrences, the item scan succeeds, keeps
the validity flag unchanged, decrements every key by its occurrence
count, and preserves the key set. -/
theorem scanItems_ok (items : List WarehouseItem) :
    ∀ (ids : List String) (d : List (String × ℤ)) (v : Bool),
      items.map (fun i => i.article.map Article.id) = ids.map some →
      (∀ k ∈ ids, ∃ c : ℤ, lookupCD d k = some c ∧ (ids.count k : ℤ) ≤ c) →
      ∃ d', scanItems d v items = Except.ok (d', v) ∧
        (∀ k, lookupCD d' k =
          (lookupCD d k).map fun c => c - (ids.count k : ℤ)) ∧
        keysCD d' = keysCD d := by
  induction items with
  | nil =>
    intro ids d v hmap _
    have hids : ids = [] := by
      cases ids with
      | nil => rfl
      | cons a t => simp at hmap
    subst hids
    refine ⟨d, rfl, fun k => ?_, rfl⟩
    cases lookupCD d k <;> simp
  | cons i rest ih =>
    intro ids d v hmap hcount
    cases ids with
    | nil => simp at hmap
    | cons k restIds =>
      simp only [List.map_cons, List.cons.injEq] at hmap
      obtain ⟨hhead, htail⟩ := hmap
      obtain ⟨a, ha, haid⟩ := Option.map_eq_some'.mp hhead
      subst haid
      obtain ⟨c, hc, hcle⟩ := hcount a.id (List.mem_cons_self a.id restIds)
      have hcount_cons : (a.id :: restIds).count a.id = restIds.count a.id + 1 := by
        simp [List.count_cons]
      have hc1 : 1 ≤ c := by
        rw [hcount_cons] at hcle
        push_cast at hcle
        omega
      have hflag : (v && decide (0 ≤ c - 1)) = v := by
        have hd : decide (0 ≤ c - 1) = true := decide_eq_true (by omega)
        rw [hd, Bool.and_true]
      have hrec : ∀ k' ∈ restIds, ∃ c' : ℤ,
          lookupCD (setCD d a.id (c - 1)) k' = some c' ∧
            (restIds.count k' : ℤ) ≤ c' := by
        intro k' hk'
        rw [lookupCD_setCD]
        by_cases hkk : a.id = k'
        · subst hkk
          refine ⟨c - 1, if_pos rfl, ?_⟩
          rw [hcount_cons] at hcle
          push_cast at hcle
          omega
        · obtain ⟨c', hc', hle'⟩ := hcount k' (List.mem_cons_of_mem a.id hk')
          refine ⟨c', by rw [if_neg hkk]; exact hc', ?_⟩
          have heq : (a.id :: restIds).count k' = restIds.count k' := by
            simp [List.count_cons, Ne.symm hkk]
          rw [heq] at hle'
          exact hle'
      obtain ⟨d', hscan, hlook, hkeys⟩ :=
        ih restIds (setCD d a.id (c - 1)) v htail hrec
      refine ⟨d', ?_, ?_, ?_⟩
      · simp only [scanItems, ha, hc, hflag]
        exact hscan
      · intro k''
        rw [hlook k'', lookupCD_setCD]
        by_cases hkk : a.id = k''
        · subst hkk
          rw [if_pos rfl, hc, hcount_cons]
          push_cast
          simp only [Option.map_some']
          congr 1
          ring
        · rw [if_neg hkk]
          have heq : (a.id :: restIds).count k'' = restIds.count k'' := by
            simp [List.count_cons, Ne.symm hkk]
          rw [heq]
      · rw [hkeys, keysCD_setCD, if_pos (mem_keysCD_of_lookupCD_some hc)]

/-- Scanning a concatenation sequences the two scans (the nested
`for picklist in batch.picklists: for item in picklist:` loops flatten
into one pass). -/
theorem scanItems_append (xs ys : List WarehouseItem) :
    ∀ (d : List (String × ℤ)) (v : Bool),
      scanItems d v (xs ++ ys) =
        match scanItems d v xs with
        | Except.error e => Except.error e
        | Except.ok s => scanItems s.1 s.2 ys := by
  induction xs with
  | nil => intro d v; rfl
  | cons i rest ih =>
    intro d v
    cases ha : i.article with
    | none => simp only [List.cons_append, scanItems, ha]
    | some a =>
      cases hl : lookupCD d a.id with
      | none => simp only [List.cons_append, scanItems, ha, hl]
      | some c =>
        simp only [List.cons_append, scanItems, ha, hl]
        exact ih _ _

/-- The picklist-by-picklist scan equals one scan of the flattened item
list. -/
theorem scanPicklists_eq_flatten (pls : List (List WarehouseItem)) :
    ∀ (d : List (String × ℤ)) (v : Bool),
      scanPicklists d v pls = scanItems d v pls.flatten := by
  induction pls with
  | nil => intro d v; rfl
  | cons pl rest ih =>
    intro d v
    rw [List.flatten_cons, scanItems_append, scanPicklists]
    cases scanItems d v pl with
    | error e => rfl
    | ok s => exact ih s.1 s.2

/-- When every item of the picklist has an article, the volume sum
succeeds and equals `picklistVolume`. -/
theorem volumeSumE_ok (pl : List WarehouseItem)
    (h : ∀ i ∈ pl, ∃ a, i.article = some a) :
    volumeSumE pl = Except.ok (picklistVolume pl) := by
  induction pl with
  | nil => rfl
  | cons i rest ih =>
    obtain ⟨a, ha⟩ := h i (List.mem_cons_self i rest)
    have hrest := ih fun j hj => h j (List.mem_cons_of_mem i hj)
    simp only [volumeSumE, ha, hrest, picklistVolume, List.map_cons,
      List.sum_cons, Option.map_some', Option.getD_some]

/-- When every picklist is zone-uniform, fully articled, and within the
volume limit, the zone/volume loop succeeds and keeps the flag. -/
theorem zoneVolumeCheck_ok (p : Parameters) (pls : List (List WarehouseItem)) :
    ∀ v : Bool,
      (∀ pl ∈ pls, (pl.map WarehouseItem.zone).dedup.length ≤ 1 ∧
        (∀ i ∈ pl, ∃ a, i.article = some a) ∧
        picklistVolume pl ≤ p.max_container_volume) →
      zoneVolumeCheck p v pls = Except.ok v := by
  induction pls with
  | nil => intro v _; rfl
  | cons pl rest ih =>
    intro v h
    obtain ⟨hz, hart, hvol⟩ := h pl (List.mem_cons_self pl rest)
    have h1 : decide (1 < ((pl.map WarehouseItem.zone).dedup).length) = false :=
      decide_eq_false (not_lt.mpr hz)
    have h2 : decide (p.max_container_volume < picklistVolume pl) = false :=
      decide_eq_false (not_lt.mpr hvol)
    simp only [zoneVolumeCheck, h1, volumeSumE_ok pl hart, h2, Bool.not_false,
      Bool.and_true]
    exact ih v fun q hq => h q (List.mem_cons_of_mem pl hq)

/-- A batch whose picked article multiset equals its ordered article
multiset, with zone-uniform picklists within the volume limit and an
orders count within the limit, passes all per-batch checks and keeps the
incoming validity flag. -/
theorem checkBatch_ok (p : Parameters) (b : Batch) (v : Bool)
    (horders : (b.orders.length : ℤ) ≤ p.max_orders_per_batch)
    (hmatch : Multiset.ofList (pickedArticleIds b) =
      Multiset.ofList ((orderedArticleIds b).map some))
    (hzone : ∀ pl ∈ b.picklists, (pl.map WarehouseItem.zone).dedup.length ≤ 1)
    (hvol : ∀ pl ∈ b.picklists, picklistVolume pl ≤ p.max_container_volume) :
    checkBatch p v b = Except.ok v := by
  have hperm : List.Perm (pickedArticleIds b) ((orderedArticleIds b).map some) :=
    Multiset.coe_eq_coe.mp hmatch
  have hart : ∀ i ∈ b.picklists.flatten, ∃ a, i.article = some a := by
    intro i hi
    have hmemid : i.article.map Article.id ∈ pickedArticleIds b :=
      List.mem_map_of_mem _ hi
    have hmem2 : i.article.map Article.id ∈ (orderedArticleIds b).map some :=
      hperm.mem_iff.mp hmemid
    obtain ⟨k, _, hk⟩ := List.mem_map.mp hmem2
    obtain ⟨a, ha, _⟩ := Option.map_eq_some'.mp hk.symm
    exact ⟨a, ha⟩
  obtain ⟨ids, hids⟩ := exists_map_some
    (b.picklists.flatten.map fun i => i.article.map Article.id)
    (by
      intro x hx
      obtain ⟨i, hi, hxi⟩ := List.mem_map.mp hx
      obtain ⟨a, ha⟩ := hart i hi
      exact ⟨a.id, by rw [← hxi, ha, Option.map_some']⟩)
  have hperm2 : List.Perm ids (orderedArticleIds b) := by
    have h5 : (Multiset.ofList (ids.map some)) =
        Multiset.ofList ((orderedArticleIds b).map some) := by
      rw [← hids]
      exact hmatch
    rw [← Multiset.map_coe, ← Multiset.map_coe] at h5
    exact Multiset.coe_eq_coe.mp
      (Multiset.map_injective (Option.some_injective String) h5)
  have hcnt : ∀ k, ids.count k = (orderedArticleIds b).count k :=
    fun k => hperm2.count_eq k
  have hscanpre : ∀ k ∈ ids, ∃ c : ℤ,
      lookupCD (buildCountDict (orderedArticleIds b)) k = some c ∧
        (ids.count k : ℤ) ≤ c := by
    intro k hk
    have hpos : 0 < ids.count k := List.count_pos_iff.mpr hk
    have hmemo : k ∈ orderedArticleIds b := by
      rw [hcnt k] at hpos
      exact List.count_pos_iff.mp hpos
    refine ⟨((orderedArticleIds b).count k : ℤ), ?_, ?_⟩
    · rw [lookupCD_build, if_pos hmemo]
    · rw [hcnt k]
  obtain ⟨d', hscan, hlook, hkeys⟩ :=
    scanItems_ok b.picklists.flatten ids (buildCountDict (orderedArticleIds b))
      v hids hscanpre
  have hdec : decide (p.max_orders_per_batch < (b.orders.length : ℤ)) = false :=
    decide_eq_false (not_lt.mpr horders)
  have hany : (d'.any fun kv => decide (0 < kv.2)) = false := by
    apply List.any_eq_false.mpr
    intro kv hkv
    have hnodup : (keysCD d').Nodup := by
      rw [hkeys]
      exact nodup_keysCD_build (orderedArticleIds b)
    have hsome : lookupCD d' kv.1 = some kv.2 :=
      lookupCD_eq_some_of_mem d' hnodup hkv
    rw [hlook kv.1, lookupCD_build] at hsome
    by_cases hmemo : kv.1 ∈ orderedArticleIds b
    · rw [if_pos hmemo] at hsome
      simp only [Option.map_some'] at hsome
      have : kv.2 = ((orderedArticleIds b).count kv.1 : ℤ) -
          (ids.count kv.1 : ℤ) := (Option.some.injEq _ _ ▸ hsome).symm
      rw [hcnt kv.1] at this
      simp [this]
    · rw [if_neg hmemo] at hsome
      cases hsome
  have hzv : zoneVolumeCheck p v b.picklists = Except.ok v := by
    apply zoneVolumeCheck_ok
    intro pl hpl
    exact ⟨hzone pl hpl,
      fun i hi => hart i (List.mem_flatten.mpr ⟨pl, hpl, hi⟩),
      hvol pl hpl⟩
  simp only [checkBatch, hdec, Bool.not_false, Bool.and_true,
    scanPicklists_eq_flatten, hscan, hany, hzv]

/-- The batch loop preserves the flag when every batch passes. -/
theorem checkBatches_ok (p : Parameters) (bs : List Batch) :
    ∀ v : Bool,
      (∀ b ∈ bs,
        (b.orders.length : ℤ) ≤ p.max_orders_per_batch ∧
        Multiset.ofList (pickedArticleIds b) =
          Multiset.ofList ((orderedArticleIds b).map some) ∧
        (∀ pl ∈ b.picklists, (pl.map WarehouseItem.zone).dedup.length ≤ 1) ∧
        (∀ pl ∈ b.picklists, picklistVolume pl ≤ p.max_container_volume)) →
      checkBatches p v bs = Except.ok v := by
  induction bs with
  | nil => intro v _; rfl
  | cons b rest ih =>
    intro v h
    obtain ⟨h1, h2, h3, h4⟩ := h b (List.mem_cons_self b rest)
    simp only [checkBatches, checkBatch_ok p b v h1 h2 h3 h4]
    exact ih v fun q hq => h q (List.mem_cons_of_mem b hq)

/-- C1.  The feasibility check does *not* terminate normally on every
input: when a picklist item's article id is absent from the batch's
ordered-article count map, `count_dict[item.article.id] -= 1` reads a
missing key and the check raises KeyError instead of clamping and
continuing (the violation it had just flagged is lost with the
exception). -/
theorem check_feasibility_raises_on_extraneous_article :
    check_feasibility instBad = Except.error "KeyError: b" := by
  decide

unseal Rat.add in
/-- C6 (counterexample).  `instMinFail` has a batch whose picklists
exactly partition its orders' articles, zone-uniform and within the
volume limit, yet the validator returns `false`: the global
`min_number_requested_items` check (100 requested, 1 picked) fails
independently of the per-batch conditions the claim lists. -/
theorem feasibility_round_trip_cex :
    (∀ b ∈ instMinFail.batches,
      Multiset.ofList (pickedArticleIds b) =
        Multiset.ofList ((orderedArticleIds b).map some) ∧
      (∀ pl ∈ b.picklists, (pl.map WarehouseItem.zone).dedup.length ≤ 1) ∧
      (∀ pl ∈ b.picklists,
        picklistVolume pl ≤ instMinFail.parameters.max_container_volume)) ∧
    check_feasibility instMinFail = Except.ok false := by
  refine ⟨by decide, by decide⟩

/-- C6 (amended).  If additionally the total picked-item count meets
`min_number_requested_items` and every batch's orders count is within
`max_orders_per_batch`, then an instance whose batches' picklists
exactly partition their orders' article multisets, zone-uniform and
within the volume limit, passes the validator with verdict `true`. -/
theorem feasibility_round_trip_amended (inst : Instance)
    (hmin : inst.parameters.min_number_requested_items ≤
      (totalPickedItems inst : ℤ))
    (hbatches : ∀ b ∈ inst.batches,
      (b.orders.length : ℤ) ≤ inst.parameters.max_orders_per_batch ∧
      Multiset.ofList (pickedArticleIds b) =
        Multiset.ofList ((orderedArticleIds b).map some) ∧
      (∀ pl ∈ b.picklists, (pl.map WarehouseItem.zone).dedup.length ≤ 1) ∧
      (∀ pl ∈ b.picklists,
        picklistVolume pl ≤ inst.parameters.max_container_volume)) :
    check_feasibility inst = Except.ok true := by
  have hdec : decide ((totalPickedItems inst : ℤ) <
      inst.parameters.min_number_requested_items) = false :=
    decide_eq_false (not_lt.mpr hmin)
  simp only [check_feasibility, hdec, Bool.not_false]
  exact checkBatches_ok inst.parameters inst.batches true hbatches

unseal Rat.add in
/-- Witness for C6: `instGood` satisfies all hypotheses and the
validator accepts it. -/
theorem feasibility_round_trip_amended_witness :
    check_feasibility instGood = Except.ok true :=
  feasibility_round_trip_amended instGood (by decide) (by decide)

/-- C9 (counterexample).  `evaluate` does not always produce a stats
record: the KeyError escaping `check_feasibility` propagates through
`evaluate`. -/
theorem evaluate_raises_cex :
    evaluate instBad 0 = Except.error "KeyError: b" := by
  decide

/-- C9 (amended).  Whenever `evaluate` completes (the feasibility check
does not raise), the produced stats record carries the elapsed time, the
total item count over all picklists, the picklist count, the summed
picklist cost, and the validator's verdict. -/
theorem evaluate_stats_amended (inst : Instance) (t : ℚ) (s : Stats)
    (h : evaluate inst t = Except.ok s) :
    s.time_elapsed = t ∧
    s.nbr_picklist_items =
      ((inst.batches.map Batch.picklists).flatten.map List.length).sum ∧
    s.nbr_picklists = (inst.batches.map Batch.picklists).flatten.length ∧
    s.objective_value =
      ((inst.batches.map Batch.picklists).flatten.map
        (picklist_cost inst.parameters)).sum ∧
    check_feasibility inst = Except.ok s.feasible := by
  unfold evaluate at h
  cases hcf : check_feasibility inst with
  | error e => rw [hcf] at h; cases h
  | ok fb =>
    rw [hcf] at h
    simp only [Except.ok.injEq] at h
    subst h
    refine ⟨rfl, ?_, ?_, ?_, rfl⟩
    · simp only [List.map_flatten, List.sum_flatten, List.map_map,
        Function.comp_def]
    · simp only [List.length_flatten, List.map_map, Function.comp_def]
    · simp only [List.map_flatten, List.sum_flatten, List.map_map,
        Function.comp_def]

unseal Rat.add in
/-- Witness for C9: the record `evaluate` returns on `instGood`. -/
theorem evaluate_stats_amended_witness :
    statsGood.time_elapsed = 3 ∧
    statsGood.nbr_picklist_items =
      ((instGood.batches.map Batch.picklists).flatten.map List.length).sum ∧
    statsGood.nbr_picklists =
      (instGood.batches.map Batch.picklists).flatten.length ∧
    statsGood.objective_value =
      ((instGood.batches.map Batch.picklists).flatten.map
        (picklist_cost instGood.parameters)).sum ∧
    check_feasibility instGood = Except.ok statsGood.feasible :=
  evaluate_stats_amended instGood 3 statsGood (by decide)

end Batching
